import Mathlib

/-!
Shallow embedding of `low-level/message_handlers/disk_msg_handler.py`
(classes `DiskMsgHandler` and `Drive`) and proofs about the claims of its
specification.

Modelling conventions:
- Python strings are `String`; JSON fields that may be absent or `None`
  are `Option String`.
- `str(x)` applied to such a field is `pystr` (`str(None) = "None"`).
- `s.split(sep)` for a one-character separator is `splitChar`/`strSplit`;
  `s.split("_", 1)` together with the two-variable unpacking (which raises
  `ValueError` when no separator is present) is `splitStatus`, returning
  `none` exactly when Python raises.
- The two per-serial dictionaries are association lists (`aupsert`
  replaces in place, appends new keys at the end; lookups are
  `alookup`). The list order stands for the dict's iteration order,
  which for a CPython 2 dict is hash-slot order, not insertion order;
  every property proved below is insensitive to that order except the
  report-entry order, whose concrete inputs are chosen (via
  `py2StringHash`/`py2Slot`) so that the list order provably coincides
  with the hash-slot order of the keys involved.
- `_process_msg` is `process_msg`; its observable effects are collected in
  `ProcOut`: the post state, the messages sent to the egress processor
  (`egress`), the IEM messages sent to the logging handler (`iems`), the
  durable-report write attempts (`reports`, `none` when the write was
  aborted by the caught serialization exception) and `err`, holding the
  Python exception escaping `_process_msg`, if any (caught only by the
  `run` loop).
- Python runtime errors raised inside `_process_msg` are the `PyErr`
  values: `keyError` for `dict[missing]`, `valueError` for failed tuple
  unpacking, `unboundLocal` for reading a never-assigned local,
  `attributeError` for `None.lower()`, `typeError` for `str + int`.
-/

set_option autoImplicit false

namespace CortxDisk

/-- splitChar models Python `s.split(c)` for a single-character separator,
working over the character list of the string. -/
def splitChar (c : Char) : List Char → List (List Char)
  | [] => [[]]
  | x :: xs =>
    match splitChar c xs with
    | [] => [[]]
    | y :: ys => if x = c then [] :: y :: ys else (x :: y) :: ys

/-- joinChar intercalates the separator character back between segments. -/
def joinChar (c : Char) : List (List Char) → List Char
  | [] => []
  | [x] => x
  | x :: y :: t => x ++ c :: joinChar c (y :: t)

/-- strSplit is Python `s.split(c)` returning strings. -/
def strSplit (c : Char) (s : String) : List String :=
  (splitChar c s.toList).map List.asString

/-- pylower models Python `s.lower()` (ASCII case folding). -/
def pylower (s : String) : String := (s.toList.map Char.toLower).asString

/-- pystr models Python `str(x)` on a possibly-`None` string value. -/
def pystr : Option String → String
  | none => "None"
  | some s => s

/-- splitStatus models `status, reason = s.split("_", 1)`: `none` when the
separator is absent (Python raises `ValueError`), otherwise the text
before the first `_` and everything after it. -/
def splitStatus (s : String) : Option (String × String) :=
  match splitChar '_' s.toList with
  | [] => none
  | [_] => none
  | x :: y :: t => some (x.asString, (joinChar '_' (y :: t)).asString)

/-- leadsWith tests whether the first list starts the second one. -/
def leadsWith : List Char → List Char → Bool
  | [], _ => true
  | _ :: _, [] => false
  | a :: as, b :: bs => a = b && leadsWith as bs

/-- containsSub models Python `needle in hay` on strings (as char lists). -/
def containsSub : List Char → List Char → Bool
  | [], needle => needle.isEmpty
  | x :: t, needle => leadsWith needle (x :: t) || containsSub t needle

/-- PyErr enumerates the Python runtime errors that can escape
`_process_msg`. -/
inductive PyErr where
  | keyError
  | valueError
  | unboundLocal
  | attributeError
  | typeError
  deriving DecidableEq

/-- Drive embeds the `Drive` class: constructor arguments plus the three
fields filled in by path parsing (`_enclosure`, `_drive_num`,
`_filename`). `_drive_num` starts as the integer `-1` and becomes a path
segment string after a successful parse, hence `Int ⊕ String`. -/
structure Drive where
  hostId : String
  path : Option String
  status : Option String
  serialNumber : Option String
  drawer : Option String
  location : Option String
  manufacturer : Option String
  productName : Option String
  productVersion : Option String
  wwn : Option String
  enclosure : String
  drive_num : Int ⊕ String
  filename : String
  deriving DecidableEq

/-- mkDrive is `Drive(hostId, path, status, serialNumber)` with the other
constructor arguments left at their `"N/A"` defaults. -/
def mkDrive (hostId : String) (path status serialNumber : Option String) : Drive :=
  { hostId := hostId, path := path, status := status, serialNumber := serialNumber,
    drawer := some "N/A", location := some "N/A", manufacturer := some "N/A",
    productName := some "N/A", productVersion := some "N/A", wwn := some "N/A",
    enclosure := "N/A", drive_num := Sum.inl (-1), filename := "N/A" }

/-- mkHpiDrive is the ten-argument `Drive(...)` call of the HPI branch. -/
def mkHpiDrive (hostId : String)
    (path status serialNumber drawer location manufacturer productName
     productVersion wwn : Option String) : Drive :=
  { hostId := hostId, path := path, status := status, serialNumber := serialNumber,
    drawer := drawer, location := location, manufacturer := manufacturer,
    productName := productName, productVersion := productVersion, wwn := wwn,
    enclosure := "N/A", drive_num := Sum.inl (-1), filename := "N/A" }

/-- parse_drive_mngr_path embeds `Drive.parse_drive_mngr_path`: split the
path on `/`; fewer than 4 segments is failure (drive unchanged), otherwise
segments 0, 2, 3 become enclosure, drive number and filename. A `None`
path raises `AttributeError`, caught by the method itself, so it is also
failure. -/
def Drive.parse_drive_mngr_path (d : Drive) : Bool × Drive :=
  match d.path with
  | none => (false, d)
  | some p =>
    let pv := strSplit '/' p
    if pv.length < 4 then (false, d)
    else (true, { d with enclosure := pv.getD 0 "",
                         drive_num := Sum.inr (pv.getD 2 ""),
                         filename := pv.getD 3 "" })

/-- parse_hpi_path embeds `Drive.parse_hpi_path`: like the drive-manager
variant but requiring only 3 segments and not setting the filename. -/
def Drive.parse_hpi_path (d : Drive) : Bool × Drive :=
  match d.path with
  | none => (false, d)
  | some p =>
    let pv := strSplit '/' p
    if pv.length < 3 then (false, d)
    else (true, { d with enclosure := pv.getD 0 "",
                         drive_num := Sum.inr (pv.getD 2 "") })

/-- Entry is one element of the durable report's `drives` list. -/
structure Entry where
  serial_number : Option String
  status : String
  reason : String
  deriving DecidableEq

/-- serializeEntries embeds the loop of `_serialize_disk_status`: walk the
drive-manager store in iteration order, split each drive's status on the
first `_`; a status without separator raises `ValueError`, which aborts
the whole write (the surrounding `try` catches it and nothing is
written), modelled as `none`. -/
def serializeEntries : List (Option String × Drive) → Option (List Entry)
  | [] => some []
  | (_, d) :: t =>
    match splitStatus (pystr d.status) with
    | none => none
    | some (status, reason) =>
      match serializeEntries t with
      | none => none
      | some es =>
        some ({ serial_number := d.serialNumber, status := status, reason := reason } :: es)

/-- IemMsg is the structured incident payload `_log_IEM` sends to the
logging message handler. -/
structure IemMsg where
  log_msg : String
  enclosure_serial_number : String
  disk_serial_number : Option String
  slot : Int ⊕ String
  status : String
  reason : String
  deriving DecidableEq

/-- iemLogMsg is the `log_msg` branch ladder of `_log_IEM`. `none` means
no branch assigned `log_msg`, so the later read of the local raises
`UnboundLocalError`. -/
def iemLogMsg (status reason : String) : Option String :=
  if pylower status = "empty" ∨ pylower status = "unused" then
    some "IEC: 020001002: Drive removed"
  else if pylower status = "ok" ∨ pylower status = "inuse" then
    some "IEC: 020001001: Drive added"
  else if pylower status = "failed" then
    if containsSub (pylower reason).toList "smart".toList then
      some "IEC: 020002002: SMART validation test has failed"
    else
      some ("IEC: 000000000: Attempting to log unknown disk status/reason: "
            ++ status ++ "/" ++ reason)
  else none

/-- log_IEM embeds `_log_IEM`: split the new status (ValueError when there
is no `_`), pick the log message (UnboundLocalError when no branch
matches), then emit exactly one incident record. -/
def log_IEM (d : Drive) : Except PyErr IemMsg :=
  match splitStatus (pystr d.status) with
  | none => Except.error PyErr.valueError
  | some (status, reason) =>
    match iemLogMsg status reason with
    | none => Except.error PyErr.unboundLocal
    | some m =>
      Except.ok { log_msg := m, enclosure_serial_number := d.enclosure,
                  disk_serial_number := d.serialNumber, slot := d.drive_num,
                  status := status, reason := reason }

/-- OutMsg is a message handed to the RabbitMQ egress processor: a
drive-manager status payload (`DriveMngrMsg`), an HPI data payload
(`HPIDataMsg`) or an ack response (`AckResponseMsg`). -/
inductive OutMsg where
  | driveMngr (enclosure : String) (slot : Int ⊕ String) (status : Option String)
      (serial : Option String) (uuid : Option String)
  | hpiData (hostId : String) (path : Option String)
      (drawer location manufacturer productName productVersion serial wwn : Option String)
      (enclosure : String) (uuid : Option String)
  | ack (request : Option String) (response : String) (uuid : Option String)
  deriving DecidableEq

/-- dmOut is `drive.toDriveMngrJsonMsg(uuid)`. -/
def dmOut (d : Drive) (uuid : Option String) : OutMsg :=
  OutMsg.driveMngr d.enclosure d.drive_num d.status d.serialNumber uuid

/-- hpiOut is `drive.toHPIjsonMsg(uuid)`. -/
def hpiOut (d : Drive) (uuid : Option String) : OutMsg :=
  OutMsg.hpiData d.hostId d.path d.drawer d.location d.manufacturer
    d.productName d.productVersion d.serialNumber d.wwn d.enclosure uuid

/-- DriveMap models a Python dict keyed by the (possibly `None`) serial
number, as an association list in insertion order. -/
abbrev DriveMap := List (Option String × Drive)

/-- alookup is dict lookup (first matching key). -/
def alookup : DriveMap → Option String → Option Drive
  | [], _ => none
  | (k, v) :: t, k' => if k = k' then some v else alookup t k'

/-- aupsert is `dict[k] = v`: replace in place, else append at the end. -/
def aupsert : DriveMap → Option String → Drive → DriveMap
  | [], k, v => [(k, v)]
  | (k', v') :: t, k, v =>
    if k' = k then (k, v) :: t else (k', v') :: aupsert t k v

/-- akeys lists the keys of the map in iteration order. -/
def akeys (l : DriveMap) : List (Option String) := l.map Prod.fst

/-- HState is the handler's mutable state: the hostname resolved at
initialization and the two per-serial stores `_drvmngr_drives`
(`driveManagerView`) and `_hpi_drives` (`inventoryView`). -/
structure HState where
  host_id : String
  drvmngr : DriveMap
  hpi : DriveMap
  deriving DecidableEq

/-- initState is the state right after `initialize`: both stores empty. -/
def initState (host : String) : HState :=
  { host_id := host, drvmngr := [], hpi := [] }

/-- ProcOut packages one `_process_msg` call's observable outcome. -/
structure ProcOut where
  state : HState
  egress : List OutMsg
  iems : List IemMsg
  reports : List (Option (List Entry))
  err : Option PyErr
  deriving DecidableEq

/-- InMsg is a decoded inbound JSON message, restricted to the keys
`_process_msg` reads. Absent keys are `none`. -/
structure InMsg where
  sensor_response_type : Option String
  sensor_request_type : Option String
  serial_number : Option String
  serialNumber : Option String
  status : Option String
  event_path : Option String
  object_path : Option String
  node_request : Option String
  uuid : Option String
  drawer : Option String
  location : Option String
  manufacturer : Option String
  productName : Option String
  productVersion : Option String
  wwn : Option String
  deriving DecidableEq

/-- blankMsg is the JSON object `{}` (every key absent). -/
def blankMsg : InMsg :=
  { sensor_response_type := none, sensor_request_type := none,
    serial_number := none, serialNumber := none, status := none,
    event_path := none, object_path := none, node_request := none,
    uuid := none, drawer := none, location := none, manufacturer := none,
    productName := none, productVersion := none, wwn := none }

/-- noop is a dropped message: log only, no emission, no state change. -/
def noop (st : HState) : ProcOut :=
  { state := st, egress := [], iems := [], reports := [], err := none }

/-- dmBuildDrive covers the two drivemanager sub-variants of
`_process_msg`: with `event_path` the drive is built directly from the
message; with `object_path` the path is synthesized from the stored HPI
record for this serial (sentinel path when there is none, or when the
concatenation raises inside the caught `try`). `none` means the event is
dropped (invalid path or neither key). -/
def dmBuildDrive (st : HState) (m : InMsg) : Option Drive :=
  match m.event_path with
  | some ep =>
    match (mkDrive st.host_id (some ep) m.status m.serial_number).parse_drive_mngr_path with
    | (true, d) => some d
    | (false, _) => none
  | none =>
    match m.object_path with
    | none => none
    | some _ =>
      let ep :=
        match alookup st.hpi m.serial_number with
        | some hd =>
          match hd.drive_num with
          | Sum.inr s => hd.enclosure ++ "/disk/" ++ s ++ "/status"
          | Sum.inl _ => "HPIdataNotAvailable/disk/-1/status"
        | none => "HPIdataNotAvailable/disk/-1/status"
      match (mkDrive st.host_id (some ep) m.status m.serial_number).parse_drive_mngr_path with
      | (true, d) => some d
      | (false, _) => none

/-- dmUpdate is the tail of the drivemanager branch once `_log_IEM` did
not raise: forwarded outbound message, any IEM already emitted, the store
updated for this serial and the durable report rewritten from the
updated store. -/
def dmUpdate (st : HState) (sn : Option String) (drive : Drive)
    (iems : List IemMsg) : ProcOut :=
  { state := { st with drvmngr := aupsert st.drvmngr sn drive },
    egress := [dmOut drive none], iems := iems,
    reports := [serializeEntries (aupsert st.drvmngr sn drive)], err := none }

/-- handleDmDrive is the tail of the drivemanager branch after a valid
parse: forward the outbound status message, raise an IEM when a stored
record for this serial has a different status (an exception from
`_log_IEM` escapes here, before the store update), then update the store
and rewrite the durable report. -/
def handleDmDrive (st : HState) (sn : Option String) (drive : Drive) : ProcOut :=
  match alookup st.drvmngr sn with
  | some prev =>
    if prev.status = drive.status then dmUpdate st sn drive []
    else
      match log_IEM drive with
      | Except.error e =>
        { state := st, egress := [dmOut drive none], iems := [],
          reports := [], err := some e }
      | Except.ok iem => dmUpdate st sn drive [iem]
  | none => dmUpdate st sn drive []

/-- handleHpi is the `disk_status_hpi` branch: build the full drive,
validate its path, store it in the HPI view, synthesize the drive-manager
path from its parsed enclosure/slot, validate and store the synthesized
record, rewrite the report, then forward the outbound HPI message. A
parse failure of the synthesized path drops the event after the HPI view
was already updated. -/
def handleHpi (st : HState) (m : InMsg) : ProcOut :=
  let d0 := mkHpiDrive st.host_id m.event_path m.status m.serialNumber m.drawer
      m.location m.manufacturer m.productName m.productVersion m.wwn
  match d0.parse_hpi_path with
  | (false, _) => noop st
  | (true, drive) =>
    let sn := m.serialNumber
    let hpi2 := aupsert st.hpi sn drive
    match drive.drive_num with
    | Sum.inl _ =>
      { state := { st with hpi := hpi2 }, egress := [], iems := [],
        reports := [], err := some PyErr.typeError }
    | Sum.inr dn =>
      let ep2 := drive.enclosure ++ "/disk/" ++ dn ++ "/status"
      match (mkDrive st.host_id (some ep2) m.status sn).parse_drive_mngr_path with
      | (false, _) =>
        { state := { st with hpi := hpi2 }, egress := [], iems := [],
          reports := [], err := none }
      | (true, dmd) =>
        let dm2 := aupsert st.drvmngr sn dmd
        { state := { st with hpi := hpi2, drvmngr := dm2 },
          egress := [hpiOut drive none], iems := [],
          reports := [serializeEntries dm2], err := none }

/-- smartAll is the `disk_smart_test` wildcard loop: one ack per stored
drive, Passed when the lower-cased status is `inuse_ok` or `ok_none`,
Failed otherwise; a stored `None` status raises `AttributeError`
mid-loop. -/
def smartAll (node_request uuid : Option String) :
    DriveMap → List OutMsg × Option PyErr
  | [] => ([], none)
  | (_, d) :: rest =>
    match d.status with
    | none => ([], some PyErr.attributeError)
    | some stv =>
      let response := if pylower stv = "inuse_ok" ∨ pylower stv = "ok_none"
        then "Passed" else "Failed"
      let req := "SMART_TEST: serial number: " ++ pystr d.serialNumber
        ++ ", IP: " ++ pystr node_request
      match smartAll node_request uuid rest with
      | (ms, e) => (OutMsg.ack (some req) response uuid :: ms, e)

/-- requestOut computes the emissions and possible exception of the
`sensor_request_type` branch; the state is never touched there. Note the
concrete-serial `drvmngr_status` / `hpi_status` lookups index the dict
directly, so an absent serial raises `KeyError` before the dead
"not found" ack branch can run. -/
def requestOut (st : HState) (m : InMsg) (srq : String) :
    List OutMsg × Option PyErr :=
  let sn := m.serial_number
  let node_request := m.node_request
  let uuid := m.uuid
  if srq = "disk_smart_test" then
    if sn = some "*" then smartAll node_request uuid st.drvmngr
    else
      match alookup st.drvmngr sn with
      | some d =>
        match d.status with
        | none => ([], some PyErr.attributeError)
        | some stv =>
          let response := if pylower stv = "inuse_ok" ∨ pylower stv = "ok_none"
            then "Passed" else "Failed"
          ([OutMsg.ack node_request response uuid], none)
      | none =>
        ([OutMsg.ack node_request
            "Error: SMART results not yet available for drive, please try again later."
            uuid], none)
  else if srq = "drvmngr_status" then
    if sn = some "*" then
      (st.drvmngr.map (fun p => dmOut p.2 uuid)
        ++ [OutMsg.ack node_request "All Drive manager data sent successfully" uuid], none)
    else
      match alookup st.drvmngr sn with
      | none => ([], some PyErr.keyError)
      | some d =>
        ([dmOut d uuid,
          OutMsg.ack node_request "Drive manager data sent successfully" uuid], none)
  else if srq = "hpi_status" then
    if sn = some "*" then
      (st.hpi.map (fun p => hpiOut p.2 uuid)
        ++ [OutMsg.ack node_request "All HPI data sent successfully" uuid], none)
    else
      match alookup st.hpi sn with
      | none => ([], some PyErr.keyError)
      | some d =>
        ([hpiOut d uuid,
          OutMsg.ack node_request "Drive manager data sent successfully" uuid], none)
  else ([], none)

/-- handleRequest wraps `requestOut`; request handling never mutates the
stores. -/
def handleRequest (st : HState) (m : InMsg) (srq : String) : ProcOut :=
  { state := st, egress := (requestOut st m srq).1, iems := [],
    reports := [], err := (requestOut st m srq).2 }

/-- process_msg embeds `DiskMsgHandler._process_msg` on one decoded
message. A message with neither classification key reaches the final
`else`, whose ack construction reads the locals `node_request` and `uuid`
that were never assigned on this path, raising `UnboundLocalError` before
anything is emitted. -/
def process_msg (st : HState) (m : InMsg) : ProcOut :=
  match m.sensor_response_type with
  | some srt =>
    if srt = "disk_status_drivemanager" then
      match dmBuildDrive st m with
      | none => noop st
      | some drive => handleDmDrive st m.serial_number drive
    else if srt = "disk_status_hpi" then handleHpi st m
    else noop st
  | none =>
    match m.sensor_request_type with
    | some srq => handleRequest st m srq
    | none =>
      { state := st, egress := [], iems := [], reports := [],
        err := some PyErr.unboundLocal }

/-- processAll folds `process_msg` over a message sequence, keeping only
the state (the `run` loop catches any per-message exception and goes on
with the next message). -/
def processAll : HState → List InMsg → HState
  | st, [] => st
  | st, m :: t => processAll (process_msg st m).state t

/-- unrecognizedStatus holds when the drive's status either has no `_`
separator or its lower-cased leading segment is none of the five states
`_log_IEM` knows. -/
def unrecognizedStatus (d : Drive) : Prop :=
  ∀ s r, splitStatus (pystr d.status) = some (s, r) →
    pylower s ≠ "empty" ∧ pylower s ≠ "unused" ∧ pylower s ≠ "ok" ∧
    pylower s ≠ "inuse" ∧ pylower s ≠ "failed"

/-- claimC8msg is the incident-message mapping table as the spec states
it, total over the recognized states (value irrelevant outside them). -/
def claimC8msg (status reason : String) : String :=
  if pylower status = "empty" ∨ pylower status = "unused" then
    "IEC: 020001002: Drive removed"
  else if pylower status = "ok" ∨ pylower status = "inuse" then
    "IEC: 020001001: Drive added"
  else if pylower status = "failed" then
    if containsSub (pylower reason).toList "smart".toList then
      "IEC: 020002002: SMART validation test has failed"
    else
      "IEC: 000000000: Attempting to log unknown disk status/reason: "
        ++ status ++ "/" ++ reason
  else ""

/-- lexLe is lexicographic order on character lists, used to state what
"key-sorted order" would mean for report entries. -/
def lexLe : List Char → List Char → Bool
  | [], _ => true
  | _ :: _, [] => false
  | a :: as, b :: bs => if a = b then lexLe as bs else decide (a < b)

/-- keySortedB holds when consecutive report entries have nondecreasing
serial-number keys. -/
def keySortedB : List Entry → Bool
  | [] => true
  | [_] => true
  | e1 :: e2 :: t =>
    lexLe (pystr e1.serial_number).toList (pystr e2.serial_number).toList
      && keySortedB (e2 :: t)

/-- demoDriveC4 is a drive built from a well-formed drivemanager path. -/
def demoDriveC4 : Drive :=
  mkDrive "host1" (some "E1/disk/3/status") (some "ok_none") (some "SN42")

/-- reqDm404 is a `drvmngr_status` request for a serial that no store
holds. -/
def reqDm404 : InMsg :=
  { blankMsg with
    sensor_request_type := some "drvmngr_status",
    serial_number := some "SN404",
    node_request := some "NODE" }

/-- reqHpi404 is the analogous `hpi_status` request. -/
def reqHpi404 : InMsg := { reqDm404 with sensor_request_type := some "hpi_status" }

/-- msgSeed is a drivemanager event used to populate a store with one
drive (serial `"S0"`) before issuing the missing-serial requests. -/
def msgSeed : InMsg :=
  { blankMsg with
    sensor_response_type := some "disk_status_drivemanager",
    serial_number := some "S0",
    status := some "ok_none",
    event_path := some "E0/disk/0/status" }

/-- stSeeded is the state after processing `msgSeed` from empty stores. -/
def stSeeded : HState := (process_msg (initState "host1") msgSeed).state

/-- driveNoSepC3 has the separator-less status `"ok"`. -/
def driveNoSepC3 : Drive :=
  mkDrive "host1" (some "E1/disk/1/status") (some "ok") (some "A")

/-- driveOkC3 has a well-formed status. -/
def driveOkC3 : Drive :=
  mkDrive "host1" (some "E1/disk/2/status") (some "inuse_ok") (some "B")

/-- viewC3 is a drive-manager view with one separator-less record and one
good record. -/
def viewC3 : DriveMap := [(some "A", driveNoSepC3), (some "B", driveOkC3)]

/-- viewC6 is a one-record view with a splittable status. -/
def viewC6 : DriveMap := [(some "B", driveOkC3)]

/-- py2StringHash models CPython 2.7's default (non-randomized)
`string_hash` on a 64-bit build: `x = s[0] << 7`, then
`x = (1000003 * x) ^ ord(c)` over all characters modulo `2 ^ 64`, then
`x ^= len(s)`, with `-1` remapped to `-2`. For ASCII text the 2.7
`unicode` hash computes the same value. -/
def py2StringHash (s : String) : Nat :=
  match s.toList with
  | [] => 0
  | c0 :: _ =>
    let m : Nat := 2 ^ 64 - 1
    let x0 : Nat := (c0.toNat <<< 7) &&& m
    let x1 : Nat := s.toList.foldl
      (fun x c => ((1000003 * x) ^^^ c.toNat) &&& m) x0
    let x2 : Nat := x1 ^^^ s.toList.length
    if x2 = m then m - 1 else x2

/-- py2Slot is the slot index `hash & (size - 1)` of a key in a fresh
CPython 2 dict of minimal size 8. A fresh dict whose few keys occupy
distinct slots (no collision, no resize) is iterated by `iteritems()` in
increasing slot order, independent of insertion order. -/
def py2Slot (s : String) : Nat := py2StringHash s &&& 7

/-- msgSerC and msgSerB arrive in the order serial `"c"` then `"b"`.
These serials hash to dict slots 2 (`"c"`) and 3 (`"b"`) — the same two
slots on a 32-bit build — so the two-entry `_drvmngr_drives` dict is
iterated `"c"` first however the events are ordered; processing `"c"`
first makes the model's insertion-order store coincide with that
iteration order. -/
def msgSerC : InMsg :=
  { blankMsg with
    sensor_response_type := some "disk_status_drivemanager",
    serial_number := some "c",
    status := some "ok_none",
    event_path := some "E1/disk/1/status" }

/-- msgSerB is the second event, for serial `"b"`. -/
def msgSerB : InMsg :=
  { msgSerC with
    serial_number := some "b",
    status := some "failed_smart",
    event_path := some "E1/disk/2/status" }

/-- runC7 processes `msgSerC` then `msgSerB` from empty stores and keeps
the second call's outcome, whose report reflects both drives. -/
def runC7 : ProcOut :=
  process_msg (process_msg (initState "host1") msgSerC).state msgSerB

/-- driveC7c and driveC7b form a view in dict iteration order c, b. -/
def driveC7c : Drive :=
  mkDrive "host1" (some "E1/disk/1/status") (some "ok_none") (some "c")

/-- driveC7b is the second record of that view. -/
def driveC7b : Drive :=
  mkDrive "host1" (some "E1/disk/2/status") (some "failed_smart") (some "b")

/-- viewC7 lists serial c before serial b, the order the dict holding
these two keys is iterated in. -/
def viewC7 : DriveMap := [(some "c", driveC7c), (some "b", driveC7b)]

/-- driveC8 carries a failed-SMART status for the mapping witness. -/
def driveC8 : Drive :=
  { mkDrive "host1" (some "E2/disk/7/status") (some "Failed_SMART check") (some "SN8") with
    enclosure := "E2", drive_num := Sum.inr "7", filename := "status" }

/-- msgC10a seeds serial `"S10"` with status `ok_none`. -/
def msgC10a : InMsg :=
  { blankMsg with
    sensor_response_type := some "disk_status_drivemanager",
    serial_number := some "S10",
    status := some "ok_none",
    event_path := some "E3/disk/4/status" }

/-- stC10 is the state holding that record. -/
def stC10 : HState := (process_msg (initState "host1") msgC10a).state

/-- msgC10b re-reports serial `"S10"` with the unrecognized status
`weird_reason`. -/
def msgC10b : InMsg := { msgC10a with status := some "weird_reason" }

/-- driveC10 is the drive `_process_msg` builds for `msgC10b`. -/
def driveC10 : Drive :=
  { mkDrive "host1" (some "E3/disk/4/status") (some "weird_reason") (some "S10") with
    enclosure := "E3", drive_num := Sum.inr "4", filename := "status" }

/-- prevC10 is the record stored for `"S10"` before `msgC10b` arrives. -/
def prevC10 : Drive :=
  { mkDrive "host1" (some "E3/disk/4/status") (some "ok_none") (some "S10") with
    enclosure := "E3", drive_num := Sum.inr "4", filename := "status" }

/-- msgHpiDemo is an HPI event for serial `"S7"`. -/
def msgHpiDemo : InMsg :=
  { blankMsg with
    sensor_response_type := some "disk_status_hpi",
    serialNumber := some "S7",
    status := some "OK_None",
    event_path := some "ENCL/disk/5",
    drawer := some "dr", location := some "loc", manufacturer := some "mf",
    productName := some "pn", productVersion := some "pv", wwn := some "ww" }

theorem data_asString (l : List Char) : (List.asString l).data = l := rfl

theorem splitChar_ne_nil (c : Char) (l : List Char) : splitChar c l ≠ [] := by
  induction l with
  | nil => simp [splitChar]
  | cons x xs ih =>
    simp only [splitChar]
    cases h : splitChar c xs with
    | nil => exact absurd h ih
    | cons y ys => by_cases hx : x = c <;> simp [hx]

theorem join_splitChar (c : Char) (l : List Char) :
    joinChar c (splitChar c l) = l := by
  induction l with
  | nil => rfl
  | cons x xs ih =>
    cases h : splitChar c xs with
    | nil => exact absurd h (splitChar_ne_nil c xs)
    | cons y ys =>
      rw [h] at ih
      simp only [splitChar, h]
      by_cases hx : x = c
      · simp only [if_pos hx, joinChar, List.nil_append]
        rw [ih, hx]
      · simp only [if_neg hx]
        cases ys with
        | nil =>
          simp only [joinChar] at ih ⊢
          rw [ih]
        | cons z zs =>
          simp only [joinChar] at ih ⊢
          rw [List.cons_append, ih]

theorem splitStatus_join {s a b : String} (h : splitStatus s = some (a, b)) :
    a ++ "_" ++ b = s := by
  unfold splitStatus at h
  cases hs : splitChar '_' s.toList with
  | nil => rw [hs] at h; simp at h
  | cons x t =>
    cases t with
    | nil => rw [hs] at h; simp at h
    | cons y t2 =>
      rw [hs] at h
      simp only [Option.some.injEq, Prod.mk.injEq] at h
      obtain ⟨ha, hb⟩ := h
      have hjoin : joinChar '_' (splitChar '_' s.toList) = s.toList :=
        join_splitChar _ _
      rw [hs] at hjoin
      apply String.ext
      rw [← ha, ← hb]
      show (x.asString ++ "_" ++ (joinChar '_' (y :: t2)).asString).data = s.data
      rw [String.data_append, String.data_append, data_asString, data_asString]
      have : joinChar '_' (x :: y :: t2) = x ++ '_' :: joinChar '_' (y :: t2) := rfl
      rw [this] at hjoin
      simpa using hjoin

theorem splitChar_length (c : Char) (l : List Char) :
    (splitChar c l).length = l.count c + 1 := by
  induction l with
  | nil => simp [splitChar]
  | cons x xs ih =>
    simp only [splitChar]
    cases h : splitChar c xs with
    | nil => exact absurd h (splitChar_ne_nil c xs)
    | cons y ys =>
      rw [h] at ih
      by_cases hx : x = c
      · simp only [if_pos hx, List.length_cons, List.count_cons]
        simp only [List.length_cons] at ih
        simp [hx, ih]
      · simp only [if_neg hx, List.length_cons, List.count_cons]
        simp only [List.length_cons] at ih
        have : (x == c) = false := by simp [hx]
        simp [this, ih]

theorem alookup_aupsert_self (l : DriveMap) (k : Option String) (v : Drive) :
    alookup (aupsert l k v) k = some v := by
  induction l with
  | nil => simp [aupsert, alookup]
  | cons p t ih =>
    obtain ⟨k', v'⟩ := p
    by_cases h : k' = k <;> simp [aupsert, alookup, h, ih]

theorem aupsert_aupsert_self (l : DriveMap) (k : Option String) (v v' : Drive) :
    aupsert (aupsert l k v) k v' = aupsert l k v' := by
  induction l with
  | nil => simp [aupsert]
  | cons p t ih =>
    obtain ⟨k2, v2⟩ := p
    by_cases h : k2 = k <;> simp [aupsert, h, ih]

theorem mem_akeys_aupsert_self (l : DriveMap) (k : Option String) (v : Drive) :
    k ∈ akeys (aupsert l k v) := by
  induction l with
  | nil => simp [aupsert, akeys]
  | cons p t ih =>
    obtain ⟨k2, v2⟩ := p
    by_cases h : k2 = k <;> simp [aupsert, akeys, h]
    · right
      simpa [akeys] using ih

theorem mem_akeys_aupsert_of_mem (l : DriveMap) (k : Option String) (v : Drive)
    (k' : Option String) (h : k' ∈ akeys l) : k' ∈ akeys (aupsert l k v) := by
  induction l with
  | nil => simp [akeys] at h
  | cons p t ih =>
    obtain ⟨k2, v2⟩ := p
    simp only [akeys, List.map_cons, List.mem_cons] at h
    by_cases hk : k2 = k
    · rcases h with h | h
      · simp [aupsert, hk, akeys]
        left; rw [h, hk]
      · simp [aupsert, hk, akeys]
        right; simpa [akeys] using h
    · rcases h with h | h
      · simp [aupsert, hk, akeys, h]
      · simp [aupsert, hk, akeys]
        right
        simpa [akeys] using ih (by simpa [akeys] using h)

theorem mem_akeys_of_aupsert (l : DriveMap) (k : Option String) (v : Drive)
    (k' : Option String) (h : k' ∈ akeys (aupsert l k v)) :
    k' = k ∨ k' ∈ akeys l := by
  induction l with
  | nil => simpa [aupsert, akeys] using h
  | cons p t ih =>
    obtain ⟨k2, v2⟩ := p
    by_cases hk : k2 = k
    · simp only [aupsert, if_pos hk, akeys, List.map_cons, List.mem_cons] at h
      rcases h with h | h
      · exact Or.inl h
      · exact Or.inr (by simp [akeys, h])
    · simp only [aupsert, if_neg hk, akeys, List.map_cons, List.mem_cons] at h
      rcases h with h | h
      · exact Or.inr (by simp [akeys, h])
      · rcases ih (by simpa [akeys] using h) with h2 | h2
        · exact Or.inl h2
        · exact Or.inr (by simp [akeys]; right; simpa [akeys] using h2)

theorem serializeEntries_spec :
    ∀ (l : DriveMap) (es : List Entry), serializeEntries l = some es →
      List.Forall₂ (fun (p : Option String × Drive) (e : Entry) =>
        e.serial_number = p.2.serialNumber ∧
        e.status ++ "_" ++ e.reason = pystr p.2.status) l es := by
  intro l
  induction l with
  | nil =>
    intro es h
    simp only [serializeEntries, Option.some.injEq] at h
    rw [← h]
    exact List.Forall₂.nil
  | cons p t ih =>
    intro es h
    obtain ⟨k, d⟩ := p
    simp only [serializeEntries] at h
    cases hs : splitStatus (pystr d.status) with
    | none => rw [hs] at h; simp at h
    | some pr =>
      obtain ⟨stv, rsn⟩ := pr
      rw [hs] at h
      cases ht : serializeEntries t with
      | none => rw [ht] at h; simp at h
      | some es' =>
        rw [ht] at h
        simp only [Option.some.injEq] at h
        rw [← h]
        exact List.Forall₂.cons ⟨rfl, splitStatus_join hs⟩ (ih es' ht)

theorem serializeEntries_none_of_bad :
    ∀ (l : DriveMap), (∃ p ∈ l, splitStatus (pystr p.2.status) = none) →
      serializeEntries l = none := by
  intro l
  induction l with
  | nil => rintro ⟨p, hp, _⟩; simp at hp
  | cons q t ih =>
    rintro ⟨p, hp, hbad⟩
    obtain ⟨k, d⟩ := q
    rcases List.mem_cons.mp hp with h | h
    · rw [h] at hbad
      simp [serializeEntries, hbad]
    · simp only [serializeEntries]
      cases hs : splitStatus (pystr d.status) with
      | none => rfl
      | some pr =>
        obtain ⟨a, b⟩ := pr
        rw [ih ⟨p, h, hbad⟩]

theorem parse_hpi_inr {d d' : Drive} (h : d.parse_hpi_path = (true, d')) :
    ∃ s, d'.drive_num = Sum.inr s := by
  unfold Drive.parse_hpi_path at h
  cases hp : d.path with
  | none => rw [hp] at h; simp at h
  | some p =>
    rw [hp] at h
    by_cases hl : (strSplit '/' p).length < 3
    · simp [hl] at h
    · simp only [if_neg hl, Prod.mk.injEq, true_and] at h
      exact ⟨_, by rw [← h]⟩

theorem synth_parse_fst (h : String) (e dn : String) (stt sn : Option String) :
    ((mkDrive h (some (e ++ "/disk/" ++ dn ++ "/status")) stt sn).parse_drive_mngr_path).1
      = true := by
  have hdata : (e ++ "/disk/" ++ dn ++ "/status").toList
      = e.toList ++ "/disk/".toList ++ dn.toList ++ "/status".toList := by
    show (e ++ "/disk/" ++ dn ++ "/status").data
        = e.data ++ "/disk/".data ++ dn.data ++ "/status".data
    rw [String.data_append, String.data_append, String.data_append]
  have hlen : ¬ ((strSplit '/' (e ++ "/disk/" ++ dn ++ "/status")).length < 4) := by
    have h1 : (strSplit '/' (e ++ "/disk/" ++ dn ++ "/status")).length
        = ((e ++ "/disk/" ++ dn ++ "/status").toList.count '/') + 1 := by
      simp [strSplit, splitChar_length]
    rw [h1, hdata]
    simp only [List.count_append]
    have h2 : "/disk/".toList.count '/' = 2 := by decide
    have h3 : "/status".toList.count '/' = 1 := by decide
    rw [h2, h3]
    omega
  unfold Drive.parse_drive_mngr_path
  simp [mkDrive, hlen]

theorem handleDm_shapes (st : HState) (sn : Option String) (d : Drive) :
    (∃ iems, handleDmDrive st sn d = dmUpdate st sn d iems) ∨
    (∃ e, handleDmDrive st sn d
      = { state := st, egress := [dmOut d none], iems := [],
          reports := [], err := some e }) := by
  cases h : alookup st.drvmngr sn with
  | none => exact Or.inl ⟨[], by simp [handleDmDrive, h]⟩
  | some prev =>
    by_cases hs : prev.status = d.status
    · exact Or.inl ⟨[], by simp [handleDmDrive, h, hs]⟩
    · cases hlog : log_IEM d with
      | error e => exact Or.inr ⟨e, by simp [handleDmDrive, h, hs, hlog]⟩
      | ok iem => exact Or.inl ⟨[iem], by simp [handleDmDrive, h, hs, hlog]⟩

theorem handleDm_host (st : HState) (sn : Option String) (d : Drive) :
    (handleDmDrive st sn d).state.host_id = st.host_id := by
  rcases handleDm_shapes st sn d with ⟨iems, h⟩ | ⟨e, h⟩ <;> (rw [h]; try rfl)

theorem handleDm_hpi (st : HState) (sn : Option String) (d : Drive) :
    (handleDmDrive st sn d).state.hpi = st.hpi := by
  rcases handleDm_shapes st sn d with ⟨iems, h⟩ | ⟨e, h⟩ <;> (rw [h]; try rfl)

theorem handleDm_drvmngr (st : HState) (sn : Option String) (d : Drive) :
    (handleDmDrive st sn d).state.drvmngr = st.drvmngr ∨
    (handleDmDrive st sn d).state.drvmngr = aupsert st.drvmngr sn d := by
  rcases handleDm_shapes st sn d with ⟨iems, h⟩ | ⟨e, h⟩ <;> rw [h]
  · exact Or.inr rfl
  · exact Or.inl rfl

theorem dmBuildDrive_congr {st st' : HState} (m : InMsg)
    (hh : st'.host_id = st.host_id) (hp : st'.hpi = st.hpi) :
    dmBuildDrive st' m = dmBuildDrive st m := by
  unfold dmBuildDrive
  rw [hh, hp]

theorem log_IEM_error {d : Drive} (h : unrecognizedStatus d) :
    ∃ e, log_IEM d = Except.error e := by
  cases hsp : splitStatus (pystr d.status) with
  | none => exact ⟨PyErr.valueError, by simp [log_IEM, hsp]⟩
  | some pr =>
    obtain ⟨s, r⟩ := pr
    obtain ⟨h1, h2, h3, h4, h5⟩ := h s r hsp
    have hnone : iemLogMsg s r = none := by
      unfold iemLogMsg
      rw [if_neg (not_or.mpr ⟨h1, h2⟩), if_neg (not_or.mpr ⟨h3, h4⟩), if_neg h5]
    exact ⟨PyErr.unboundLocal, by simp [log_IEM, hsp, hnone]⟩

theorem handleDm_on_update (st : HState) (sn : Option String) (d : Drive)
    (iems : List IemMsg) :
    handleDmDrive (dmUpdate st sn d iems).state sn d
      = dmUpdate (dmUpdate st sn d iems).state sn d [] := by
  unfold handleDmDrive dmUpdate
  simp [alookup_aupsert_self]

theorem dmUpdate_state_idem (st : HState) (sn : Option String) (d : Drive)
    (iems iems' : List IemMsg) :
    (dmUpdate (dmUpdate st sn d iems).state sn d iems').state
      = (dmUpdate st sn d iems).state := by
  unfold dmUpdate
  simp [aupsert_aupsert_self]

theorem handleHpi_host (st : HState) (m : InMsg) :
    (handleHpi st m).state.host_id = st.host_id := by
  cases hp : (mkHpiDrive st.host_id m.event_path m.status m.serialNumber m.drawer
      m.location m.manufacturer m.productName m.productVersion m.wwn).parse_hpi_path with
  | mk b drive =>
    cases b
    · simp [handleHpi, hp, noop]
    · cases hdn : drive.drive_num with
      | inl n => simp [handleHpi, hp, hdn]
      | inr dn =>
        cases hp2 : (mkDrive st.host_id
            (some (drive.enclosure ++ "/disk/" ++ dn ++ "/status"))
            m.status m.serialNumber).parse_drive_mngr_path with
        | mk b2 dmd =>
          cases b2 <;> simp [handleHpi, hp, hdn, hp2]

theorem handleHpi_idem (st : HState) (m : InMsg) :
    (handleHpi (handleHpi st m).state m).state = (handleHpi st m).state ∧
    (handleHpi (handleHpi st m).state m).iems = [] := by
  cases hp : (mkHpiDrive st.host_id m.event_path m.status m.serialNumber m.drawer
      m.location m.manufacturer m.productName m.productVersion m.wwn).parse_hpi_path with
  | mk b drive =>
    cases b
    · simp [handleHpi, hp, noop]
    · cases hdn : drive.drive_num with
      | inl n => simp [handleHpi, hp, hdn, aupsert_aupsert_self]
      | inr dn =>
        cases hp2 : (mkDrive st.host_id
            (some (drive.enclosure ++ "/disk/" ++ dn ++ "/status"))
            m.status m.serialNumber).parse_drive_mngr_path with
        | mk b2 dmd =>
          cases b2 <;> simp [handleHpi, hp, hdn, hp2, aupsert_aupsert_self]

theorem handleDm_idem (st : HState) (sn : Option String) (d : Drive) :
    (handleDmDrive (handleDmDrive st sn d).state sn d).state
      = (handleDmDrive st sn d).state ∧
    (handleDmDrive (handleDmDrive st sn d).state sn d).iems = [] := by
  rcases handleDm_shapes st sn d with ⟨iems, h⟩ | ⟨e, h⟩
  · rw [h, handleDm_on_update]
    exact ⟨dmUpdate_state_idem st sn d iems [], rfl⟩
  · have hst : (handleDmDrive st sn d).state = st := by rw [h]
    rw [hst, h]
    exact ⟨rfl, rfl⟩

/-- claim_C5: replaying any inbound message twice leaves both stores in
the same final state as processing it once, and the second (no-op)
application never emits an incident (IEM) to the logging handler — in
particular not when the first application already recorded the new
status, and not when incident logging raised (it raises again, before the
emission point). -/
theorem claim_C5_replay_idempotent (st : HState) (m : InMsg) :
    (process_msg (process_msg st m).state m).state = (process_msg st m).state ∧
    (process_msg (process_msg st m).state m).iems = [] := by
  cases hrt : m.sensor_response_type with
  | none =>
    cases hrq : m.sensor_request_type with
    | none => simp [process_msg, hrt, hrq]
    | some srq => simp [process_msg, hrt, hrq, handleRequest]
  | some srt =>
    by_cases h1 : srt = "disk_status_drivemanager"
    · subst h1
      cases hbd : dmBuildDrive st m with
      | none => simp [process_msg, hrt, hbd, noop]
      | some drive =>
        have hbd2 : dmBuildDrive (handleDmDrive st m.serial_number drive).state m
            = some drive := by
          rw [dmBuildDrive_congr m (handleDm_host st m.serial_number drive)
            (handleDm_hpi st m.serial_number drive), hbd]
        have hfirst : process_msg st m = handleDmDrive st m.serial_number drive := by
          simp [process_msg, hrt, hbd]
        rw [hfirst]
        have hsec : process_msg (handleDmDrive st m.serial_number drive).state m
            = handleDmDrive (handleDmDrive st m.serial_number drive).state
                m.serial_number drive := by
          simp [process_msg, hrt, hbd2]
        rw [hsec]
        exact handleDm_idem st m.serial_number drive
    · by_cases h2 : srt = "disk_status_hpi"
      · subst h2
        have hfirst : process_msg st m = handleHpi st m := by
          simp [process_msg, hrt, h1]
        rw [hfirst]
        have hsec : process_msg (handleHpi st m).state m
            = handleHpi (handleHpi st m).state m := by
          simp [process_msg, hrt, h1]
        rw [hsec]
        exact handleHpi_idem st m
      · simp [process_msg, hrt, h1, h2, noop]

theorem process_inv_step (st : HState) (m : InMsg)
    (h : ∀ x, x ∈ akeys st.hpi → x ∈ akeys st.drvmngr) :
    ∀ x, x ∈ akeys (process_msg st m).state.hpi →
      x ∈ akeys (process_msg st m).state.drvmngr := by
  cases hrt : m.sensor_response_type with
  | none =>
    cases hrq : m.sensor_request_type with
    | none => simpa [process_msg, hrt, hrq] using h
    | some srq => simpa [process_msg, hrt, hrq, handleRequest] using h
  | some srt =>
    by_cases h1 : srt = "disk_status_drivemanager"
    · subst h1
      cases hbd : dmBuildDrive st m with
      | none => simpa [process_msg, hrt, hbd, noop] using h
      | some drive =>
        intro x hx
        have hfirst : process_msg st m = handleDmDrive st m.serial_number drive := by
          simp [process_msg, hrt, hbd]
        rw [hfirst] at hx ⊢
        rw [handleDm_hpi] at hx
        rcases handleDm_drvmngr st m.serial_number drive with hd | hd
        · rw [hd]; exact h x hx
        · rw [hd]; exact mem_akeys_aupsert_of_mem _ _ _ _ (h x hx)
    · by_cases h2 : srt = "disk_status_hpi"
      · subst h2
        have hfirst : process_msg st m = handleHpi st m := by
          simp [process_msg, hrt, h1]
        rw [hfirst]
        cases hp : (mkHpiDrive st.host_id m.event_path m.status m.serialNumber m.drawer
            m.location m.manufacturer m.productName m.productVersion m.wwn).parse_hpi_path with
        | mk b drive =>
          cases b
          · simpa [handleHpi, hp, noop] using h
          · obtain ⟨dn, hdn⟩ := parse_hpi_inr hp
            have hfst := synth_parse_fst st.host_id drive.enclosure dn m.status m.serialNumber
            cases hp2 : (mkDrive st.host_id
                (some (drive.enclosure ++ "/disk/" ++ dn ++ "/status"))
                m.status m.serialNumber).parse_drive_mngr_path with
            | mk b2 dmd =>
              have hb2 : b2 = true := by rw [hp2] at hfst; exact hfst
              subst hb2
              intro x hx
              simp only [handleHpi, hp, hdn, hp2] at hx ⊢
              rcases mem_akeys_of_aupsert _ _ _ _ hx with heq | hmem
              · rw [heq]; exact mem_akeys_aupsert_self _ _ _
              · exact mem_akeys_aupsert_of_mem _ _ _ _ (h x hmem)
      · simpa [process_msg, hrt, h1, h2, noop] using h

/-- claim_C9: starting from empty stores, after any sequence of inbound
messages every serial number present in the inventory view also has an
entry in the drive-manager view. -/
theorem claim_C9_inventory_subset_drvmngr (host : String) (msgs : List InMsg)
    (sn : Option String)
    (h : sn ∈ akeys (processAll (initState host) msgs).hpi) :
    sn ∈ akeys (processAll (initState host) msgs).drvmngr := by
  have main : ∀ (ms : List InMsg) (st : HState),
      (∀ x, x ∈ akeys st.hpi → x ∈ akeys st.drvmngr) →
      ∀ x, x ∈ akeys (processAll st ms).hpi → x ∈ akeys (processAll st ms).drvmngr := by
    intro ms
    induction ms with
    | nil => intro st h0 x hx; exact h0 x hx
    | cons m t ih =>
      intro st h0 x hx
      exact ih _ (process_inv_step st m h0) x hx
  exact main msgs (initState host)
    (by intro x hx; simp [initState, akeys] at hx) sn h

/-- witness_C9: one HPI event from the empty stores puts serial `"S7"`
into the inventory view, and the invariant places it in the drive-manager
view as well. -/
theorem witness_C9_inventory_subset :
    some "S7" ∈ akeys (processAll (initState "host1") [msgHpiDemo]).hpi ∧
    some "S7" ∈ akeys (processAll (initState "host1") [msgHpiDemo]).drvmngr :=
  ⟨by decide,
   claim_C9_inventory_subset_drvmngr "host1" [msgHpiDemo] (some "S7") (by decide)⟩

/-- claim_C1: the claim says a message with neither classification key
yields exactly one failure ack and no exception; the code instead reads
the unassigned locals `node_request`/`uuid` while building that ack, so
`_process_msg` raises `UnboundLocalError` and emits nothing. -/
theorem claim_C1_unknown_message_raises :
    (process_msg (initState "host1") blankMsg).err = some PyErr.unboundLocal ∧
    (process_msg (initState "host1") blankMsg).egress = [] ∧
    (process_msg (initState "host1") blankMsg).state = initState "host1" := by
  exact ⟨rfl, rfl, rfl⟩

/-- claim_C2: the claim says a `drvmngr_status`/`hpi_status` request for
an absent concrete serial yields one "drive not found" failure ack and no
exception; the code indexes the dict directly (`self._drvmngr_drives[...]`),
so it raises `KeyError` and emits nothing — the "not found" ack branch is
dead. Shown against a store holding a different serial. -/
theorem claim_C2_lookup_miss_raises_keyerror :
    (process_msg stSeeded reqDm404).err = some PyErr.keyError ∧
    (process_msg stSeeded reqDm404).egress = [] ∧
    (process_msg stSeeded reqHpi404).err = some PyErr.keyError ∧
    (process_msg stSeeded reqHpi404).egress = [] := by
  exact ⟨rfl, rfl, rfl, rfl⟩

/-- counterexample_C3: `viewC3` holds one separator-less record and one
good record; the claim says the good record's entry is still written, but
the serializer produces nothing at all — the `ValueError` aborts the
whole write inside the catch block. -/
theorem counterexample_C3_whole_snapshot_lost :
    serializeEntries viewC3 = none ∧
    splitStatus (pystr driveOkC3.status) = some ("inuse", "ok") := by
  exact ⟨rfl, rfl⟩

/-- claim_C3_amended: a record whose status has no `_` separator makes
the whole durable-report write abort (nothing is produced for any record);
the exception is caught and logged at the site, so the engine continues. -/
theorem claim_C3_amended_bad_record_aborts_report (l : DriveMap)
    (h : ∃ p ∈ l, splitStatus (pystr p.2.status) = none) :
    serializeEntries l = none :=
  serializeEntries_none_of_bad l h

/-- witness_C3: the amended claim evaluated on `viewC3`. -/
theorem witness_C3_amended :
    (∃ p ∈ viewC3, splitStatus (pystr p.2.status) = none) ∧
    serializeEntries viewC3 = none :=
  ⟨⟨(some "A", driveNoSepC3), by decide, by decide⟩,
   claim_C3_amended_bad_record_aborts_report viewC3
     ⟨(some "A", driveNoSepC3), by decide, by decide⟩⟩

/-- claim_C4: for a string path, `parse_drive_mngr_path` succeeds exactly
when the `/`-split has at least 4 segments, setting enclosure, drive
number and filename to segments 0, 2, 3; with fewer segments it fails and
leaves the drive unchanged. -/
theorem claim_C4_parse_drive_mngr_path (d : Drive) (s : String)
    (hp : d.path = some s) :
    d.parse_drive_mngr_path =
      if (strSplit '/' s).length < 4 then (false, d)
      else (true, { d with enclosure := (strSplit '/' s).getD 0 "",
                           drive_num := Sum.inr ((strSplit '/' s).getD 2 ""),
                           filename := (strSplit '/' s).getD 3 "" }) := by
  unfold Drive.parse_drive_mngr_path
  rw [hp]

/-- witness_C4: the parse theorem evaluated on a four-segment path. -/
theorem witness_C4_parse :
    demoDriveC4.path = some "E1/disk/3/status" ∧
    demoDriveC4.parse_drive_mngr_path =
      (if (strSplit '/' "E1/disk/3/status").length < 4 then (false, demoDriveC4)
       else (true, { demoDriveC4 with
                      enclosure := (strSplit '/' "E1/disk/3/status").getD 0 "",
                      drive_num := Sum.inr ((strSplit '/' "E1/disk/3/status").getD 2 ""),
                      filename := (strSplit '/' "E1/disk/3/status").getD 3 "" })) :=
  ⟨rfl, claim_C4_parse_drive_mngr_path demoDriveC4 "E1/disk/3/status" rfl⟩

/-- claim_C6: whenever the durable report is actually produced for a
view, re-joining each entry as `status ++ "_" ++ reason` reproduces the
stored status string of the corresponding drive, pointwise over the whole
view. -/
theorem claim_C6_report_roundtrip (l : DriveMap) (es : List Entry)
    (h : serializeEntries l = some es) :
    List.Forall₂ (fun (p : Option String × Drive) (e : Entry) =>
      e.status ++ "_" ++ e.reason = pystr p.2.status) l es :=
  (serializeEntries_spec l es h).imp (fun _ _ hab => hab.2)

/-- witness_C6: the round-trip theorem evaluated on a one-record view. -/
theorem witness_C6_roundtrip :
    serializeEntries viewC6
      = some [{ serial_number := some "B", status := "inuse", reason := "ok" }] ∧
    List.Forall₂ (fun (p : Option String × Drive) (e : Entry) =>
      e.status ++ "_" ++ e.reason = pystr p.2.status) viewC6
      [{ serial_number := some "B", status := "inuse", reason := "ok" }] :=
  ⟨by decide, claim_C6_report_roundtrip viewC6 _ (by decide)⟩

/-- counterexample_C7: a reachable run (events for serial `"c"` then
`"b"`) makes the second state-changing event write report entries in the
order c, b — not in key-sorted order; `json.dumps(sort_keys=True)` sorts
only object keys, never the `drives` array. The order is the real dict's:
`"c"` occupies the lower hash slot (`py2Slot "c" = 2 < 3 = py2Slot "b"`,
distinct slots, so no collision in the fresh 8-slot table), hence CPython
2's `iteritems()` also yields `"c"` before `"b"` for this store, whatever
the insertion order. -/
theorem counterexample_C7_report_not_key_sorted :
    runC7.reports
      = [some [{ serial_number := some "c", status := "ok", reason := "none" },
               { serial_number := some "b", status := "failed", reason := "smart" }]] ∧
    keySortedB [{ serial_number := some "c", status := "ok", reason := "none" },
                { serial_number := some "b", status := "failed", reason := "smart" }]
      = false ∧
    py2Slot "c" = 2 ∧ py2Slot "b" = 3 := by
  exact ⟨rfl, rfl, by decide, by decide⟩

/-- claim_C7_amended: the durable report is built from the full
drive-manager view in the store's iteration order — one entry per record,
serial numbers matching pointwise — so equal view contents iterated in
equal order give equal entries; the iteration order of the CPython 2 dict
is hash-slot order, and the entries are not sorted by serial number. -/
theorem claim_C7_amended_report_iteration_order (l : DriveMap) (es : List Entry)
    (h : serializeEntries l = some es) :
    List.Forall₂ (fun (p : Option String × Drive) (e : Entry) =>
      e.serial_number = p.2.serialNumber) l es :=
  (serializeEntries_spec l es h).imp (fun _ _ hab => hab.1)

/-- witness_C7: the amended order theorem evaluated on a two-record
view held in the order c, b. -/
theorem witness_C7_iteration_order :
    serializeEntries viewC7
      = some [{ serial_number := some "c", status := "ok", reason := "none" },
              { serial_number := some "b", status := "failed", reason := "smart" }] ∧
    List.Forall₂ (fun (p : Option String × Drive) (e : Entry) =>
      e.serial_number = p.2.serialNumber) viewC7
      [{ serial_number := some "c", status := "ok", reason := "none" },
       { serial_number := some "b", status := "failed", reason := "smart" }] :=
  ⟨by decide, claim_C7_amended_report_iteration_order viewC7 _ (by decide)⟩

/-- claim_C8: when `_log_IEM` fires on a status that splits into
`(state, reason)` and the lower-cased state is one of the five recognized
values, it emits exactly one incident record carrying the drive's
enclosure serial, disk serial, slot, the split status and reason, and the
log message given by the spec's mapping table (`claimC8msg`): empty or
unused is drive removed, ok or inuse is drive added, failed with a reason
containing smart case-insensitively is SMART validation failed, failed
otherwise is the generic unknown-status message carrying the literal
state and reason. -/
theorem claim_C8_transition_mapping (d : Drive) (s r : String)
    (hsp : splitStatus (pystr d.status) = some (s, r))
    (hrec : pylower s = "empty" ∨ pylower s = "unused" ∨ pylower s = "ok" ∨
            pylower s = "inuse" ∨ pylower s = "failed") :
    log_IEM d = Except.ok
      { log_msg := claimC8msg s r, enclosure_serial_number := d.enclosure,
        disk_serial_number := d.serialNumber, slot := d.drive_num,
        status := s, reason := r } := by
  have hmap : iemLogMsg s r = some (claimC8msg s r) := by
    rcases hrec with h | h | h | h | h
    · simp [iemLogMsg, claimC8msg, h]
    · simp [iemLogMsg, claimC8msg, h]
    · simp [iemLogMsg, claimC8msg, h]
    · simp [iemLogMsg, claimC8msg, h]
    · simp [iemLogMsg, claimC8msg, h]
      rw [← apply_ite some]
  simp [log_IEM, hsp, hmap]

/-- witness_C8: the mapping theorem evaluated on a failed-SMART drive. -/
theorem witness_C8_mapping :
    splitStatus (pystr driveC8.status) = some ("Failed", "SMART check") ∧
    log_IEM driveC8 = Except.ok
      { log_msg := claimC8msg "Failed" "SMART check",
        enclosure_serial_number := "E2", disk_serial_number := some "SN8",
        slot := Sum.inr "7", status := "Failed", reason := "SMART check" } :=
  ⟨by decide,
   claim_C8_transition_mapping driveC8 "Failed" "SMART check" (by decide)
     (by decide)⟩

/-- claim_C10: a drivemanager event whose serial has a stored record with
a different status, where the new status has no separator or an
unrecognized state, makes `_log_IEM` raise: processing stops with the
outbound status message already forwarded, no IEM emitted, the
drive-manager view unchanged and no durable report written. -/
theorem claim_C10_bad_status_stops_processing (st : HState) (m : InMsg)
    (drive prev : Drive)
    (hrt : m.sensor_response_type = some "disk_status_drivemanager")
    (hbd : dmBuildDrive st m = some drive)
    (hlk : alookup st.drvmngr m.serial_number = some prev)
    (hne : prev.status ≠ drive.status)
    (hbad : unrecognizedStatus drive) :
    (process_msg st m).state = st ∧
    (process_msg st m).egress = [dmOut drive none] ∧
    (process_msg st m).iems = [] ∧
    (process_msg st m).reports = [] ∧
    (process_msg st m).err.isSome = true := by
  obtain ⟨e, hlog⟩ := log_IEM_error hbad
  have hres : process_msg st m
      = { state := st, egress := [dmOut drive none], iems := [],
          reports := [], err := some e } := by
    simp [process_msg, hrt, hbd, handleDmDrive, hlk, hne, hlog]
  rw [hres]
  exact ⟨rfl, rfl, rfl, rfl, rfl⟩

/-- witness_C10: the theorem evaluated on a stored `ok_none` record hit
by a `weird_reason` event. -/
theorem witness_C10_bad_status :
    (process_msg stC10 msgC10b).state = stC10 ∧
    (process_msg stC10 msgC10b).egress = [dmOut driveC10 none] ∧
    (process_msg stC10 msgC10b).iems = [] ∧
    (process_msg stC10 msgC10b).reports = [] ∧
    (process_msg stC10 msgC10b).err.isSome = true :=
  claim_C10_bad_status_stops_processing stC10 msgC10b driveC10 prevC10
    (by decide) (by decide) (by decide) (by decide)
    (by
      intro s r hsp
      have hx : splitStatus (pystr driveC10.status) = some ("weird", "reason") := by
        decide
      rw [hx] at hsp
      simp only [Option.some.injEq, Prod.mk.injEq] at hsp
      obtain ⟨hs, hr⟩ := hsp
      subst hs
      exact ⟨by decide, by decide, by decide, by decide, by decide⟩)

end CortxDisk
